import Mathlib

/-!
Shallow embedding of
src/packages/buidler-core/src/internal/buidler-evm/stack-traces/vm-tracer.ts.

The JS code mutates trace objects shared by reference between the stack of
open frames and the steps arrays of their parents. The model makes that heap
explicit: a store (list) of trace objects, with store indices playing the
role of object references. The tracer state carries the store plus the
fields of the VMTracer class; each event handler is split into its try-block
body (which may end in a thrown error, returning the state as mutated so
far) and a catch wrapper implementing the error-tolerant logic.
-/

/-- Bytes of a JS Buffer, modelled as a list of byte values. -/
abbrev Bytes := List Nat

/-- Big-endian integer value of a buffer, as computed by BN(buffer). -/
def bufferToBN (b : Bytes) : Nat :=
  b.foldl (fun acc x => acc * 256 + x) 0

/-- vm-tracer.ts line 24: DUMMY_RETURN_DATA = Buffer.from([]). -/
def DUMMY_RETURN_DATA : Bytes := []

/-- External collaborators: the precompile registry size
(Object.keys(precompiles).length, imported from ethereumjs-vm) and the
asynchronous contract code lookup, which may fail. -/
structure VMTracerEnv where
  precompilesCount : Nat
  getContractCode : Bytes → Except String Bytes

/-- vm-tracer.ts line 23: MAX_PRECOMPILE_NUMBER = Object.keys(precompiles).length + 1. -/
def MAX_PRECOMPILE_NUMBER (env : VMTracerEnv) : Nat :=
  env.precompilesCount + 1

/-- One entry of a steps array: either an executed instruction marker
(program counter only) or a nested MessageTrace. The JS array stores the
child object itself; the model stores its index in the trace store. -/
inductive MessageTraceStep where
  | step (pc : Nat)
  | trace (id : Nat)
  deriving DecidableEq

/-- message-trace.ts PrecompileMessageTrace, as used by vm-tracer.ts. -/
structure PrecompileMessageTrace where
  precompile : Nat
  calldata : Bytes
  value : Nat
  returnData : Bytes
  depth : Nat
  error : Option String
  deriving DecidableEq

/-- message-trace.ts CreateMessageTrace, as used by vm-tracer.ts. -/
structure CreateMessageTrace where
  code : Bytes
  steps : List MessageTraceStep
  value : Nat
  returnData : Bytes
  numberOfSubtraces : Nat
  depth : Nat
  deployedContract : Option Bytes
  error : Option String
  deriving DecidableEq

/-- message-trace.ts CallMessageTrace, as used by vm-tracer.ts. -/
structure CallMessageTrace where
  code : Bytes
  calldata : Bytes
  steps : List MessageTraceStep
  value : Nat
  returnData : Bytes
  address : Bytes
  numberOfSubtraces : Nat
  depth : Nat
  error : Option String
  deriving DecidableEq

/-- message-trace.ts MessageTrace: tagged union of the three frame variants. -/
inductive MessageTrace where
  | create (t : CreateMessageTrace)
  | call (t : CallMessageTrace)
  | precompile (t : PrecompileMessageTrace)
  deriving DecidableEq

/-- message-trace.ts isPrecompileTrace. -/
def isPrecompileTrace : MessageTrace → Bool
  | .precompile _ => true
  | _ => false

/-- message-trace.ts isCreateTrace. -/
def isCreateTrace : MessageTrace → Bool
  | .create _ => true
  | _ => false

/-- The VM Message descriptor, restricted to the fields vm-tracer.ts reads. -/
structure Message where
  «to» : Option Bytes
  data : Bytes
  value : Nat
  depth : Nat
  _codeAddress : Option Bytes
  deriving DecidableEq

/-- The InterpreterStep descriptor, restricted to the field vm-tracer.ts reads. -/
structure InterpreterStep where
  pc : Nat
  deriving DecidableEq

/-- The ExecResult part of an EVMResult, restricted to the fields read. -/
structure ExecResult where
  exceptionError : Option String
  returnValue : Bytes
  deriving DecidableEq

/-- The EVMResult passed to the afterMessage handler. -/
structure EVMResult where
  execResult : ExecResult
  createdAddress : Option Bytes
  deriving DecidableEq

/-- Errors thrown inside the tracer. -/
inductive TracerError where
  | error (msg : String)
  | typeError
  | fetchError (msg : String)
  | usageError (msg : String)
  deriving DecidableEq

/-- vm-tracer.ts line 155. -/
def precompileParentErrorMessage : String :=
  "This should not happen: message execution started while a precompile was executing"

/-- vm-tracer.ts line 189. -/
def stepOnPrecompileErrorMessage : String :=
  "This should not happen: step event fired while a precompile was executing"

/-- vm-tracer.ts line 66 (apostrophe removed). -/
def cannotGetTraceDisabledMessage : String :=
  "You cannot get a vm trace if the VMTracer is disabled"

/-- vm-tracer.ts line 70 (apostrophe removed). -/
def cannotGetTraceNoMessageMessage : String :=
  "You cannot get a vm trace if no message was executed yet"

/-- The state of a VMTracer instance, plus the explicit heap of trace
objects. messageTraces holds store indices, innermost frame last. -/
structure TracerState where
  store : List MessageTrace
  messageTraces : List Nat
  enabled : Bool
  lastError : Option TracerError
  dontThrowErrors : Bool
  deriving DecidableEq

/-- The constructor of VMTracer: empty trace list, disabled, no error. -/
def mkVMTracer (dontThrowErrors : Bool) : TracerState :=
  { store := [], messageTraces := [], enabled := false, lastError := none,
    dontThrowErrors := dontThrowErrors }

/-- enableTracing: attaches the handlers and sets the enabled flag. -/
def enableTracing (s : TracerState) : TracerState :=
  { s with enabled := true }

/-- disableTracing: detaches the handlers and clears the enabled flag. -/
def disableTracing (s : TracerState) : TracerState :=
  { s with enabled := false }

/-- getLastError. -/
def getLastError (s : TracerState) : Option TracerError :=
  s.lastError

/-- clearLastError. -/
def clearLastError (s : TracerState) : TracerState :=
  { s with lastError := none }

/-- _shouldKeepTracing. -/
def _shouldKeepTracing (s : TracerState) : Bool :=
  !s.dontThrowErrors || s.lastError.isNone

/-- getLastTopLevelMessageTrace: throws a usage error when disabled or when
no message was executed yet, otherwise returns messageTraces[0]. -/
def getLastTopLevelMessageTrace (s : TracerState) : Except TracerError MessageTrace :=
  if !s.enabled then
    .error (.usageError cannotGetTraceDisabledMessage)
  else if s.messageTraces.length == 0 then
    .error (.usageError cannotGetTraceNoMessageMessage)
  else
    match s.messageTraces.head? with
    | none => .error .typeError
    | some id =>
      match s.store[id]? with
      | none => .error .typeError
      | some t => .ok t

/-- parentTrace.steps.push(trace); parentTrace.numberOfSubtraces += 1
(vm-tracer.ts lines 160-161), with the child given by its store index. The
precompile case is unreachable: it is guarded by isPrecompileTrace. -/
def addSubtrace (parent : MessageTrace) (childId : Nat) : MessageTrace :=
  match parent with
  | .create t =>
    .create { t with steps := t.steps ++ [.trace childId],
                     numberOfSubtraces := t.numberOfSubtraces + 1 }
  | .call t =>
    .call { t with steps := t.steps ++ [.trace childId],
                   numberOfSubtraces := t.numberOfSubtraces + 1 }
  | .precompile t => .precompile t

/-- trace.steps.push(\x7b pc: step.pc \x7d)  (vm-tracer.ts line 194). The
precompile case is unreachable: it is guarded by isPrecompileTrace. -/
def addStep (trace : MessageTrace) (pc : Nat) : MessageTrace :=
  match trace with
  | .create t => .create { t with steps := t.steps ++ [.step pc] }
  | .call t => .call { t with steps := t.steps ++ [.step pc] }
  | .precompile t => .precompile t

/-- vm-tracer.ts lines 218-223: set error and returnData from the result,
and deployedContract when the trace is a create trace. -/
def applyResult (trace : MessageTrace) (result : EVMResult) : MessageTrace :=
  match trace with
  | .create t =>
    .create { t with error := result.execResult.exceptionError,
                     returnData := result.execResult.returnValue,
                     deployedContract := result.createdAddress }
  | .call t =>
    .call { t with error := result.execResult.exceptionError,
                   returnData := result.execResult.returnValue }
  | .precompile t =>
    .precompile { t with error := result.execResult.exceptionError,
                         returnData := result.execResult.returnValue }

/-- this._messageTraces.push(trace): allocate the new object in the store
and push its reference onto the stack of open frames. -/
def pushTrace (s : TracerState) (trace : MessageTrace) : TracerState :=
  { s with store := s.store ++ [trace],
           messageTraces := s.messageTraces ++ [s.store.length] }

/-- vm-tracer.ts lines 103-149: classify the message and build the new
trace object (fetching the contract code for a call, which may fail). -/
def _classifyMessage (env : VMTracerEnv) (message : Message) :
    Except TracerError MessageTrace :=
  match message.to with
  | none =>
    .ok (.create { code := message.data, steps := [], value := message.value,
                   returnData := DUMMY_RETURN_DATA, numberOfSubtraces := 0,
                   depth := message.depth, deployedContract := none,
                   error := none })
  | some toBuf =>
    let toAsBn := bufferToBN toBuf
    if 0 < toAsBn ∧ toAsBn ≤ MAX_PRECOMPILE_NUMBER env then
      .ok (.precompile { precompile := toAsBn, calldata := message.data,
                         value := message.value,
                         returnData := DUMMY_RETURN_DATA,
                         depth := message.depth, error := none })
    else
      let codeAddress :=
        match message._codeAddress with
        | some a => a
        | none => toBuf
      match env.getContractCode codeAddress with
      | .error e => .error (.fetchError e)
      | .ok code =>
        .ok (.call { code := code, calldata := message.data, steps := [],
                     value := message.value,
                     returnData := DUMMY_RETURN_DATA, address := toBuf,
                     numberOfSubtraces := 0, depth := message.depth,
                     error := none })

/-- The try block of _beforeMessageHandler (vm-tracer.ts lines 96-165).
Returns the state as mutated so far, and the thrown error when one was
raised. -/
def _beforeMessageBody (env : VMTracerEnv) (s : TracerState)
    (message : Message) : TracerState × Option TracerError :=
  let s1 := if message.depth == 0 then { s with messageTraces := [] } else s
  match _classifyMessage env message with
  | .error e => (s1, some e)
  | .ok trace =>
    if s1.messageTraces.length > 0 then
      match s1.messageTraces.getLast? with
      | none => (s1, some .typeError)
      | some parentId =>
        match s1.store[parentId]? with
        | none => (s1, some .typeError)
        | some parentTrace =>
          if isPrecompileTrace parentTrace then
            (s1, some (.error precompileParentErrorMessage))
          else
            let s2 := { s1 with
              store := s1.store.set parentId (addSubtrace parentTrace s1.store.length) }
            (pushTrace s2 trace, none)
    else
      (pushTrace s1 trace, none)

/-- The try block of _stepHandler (vm-tracer.ts lines 185-195). Reading the
innermost frame of an empty stack gives undefined, and isPrecompileTrace
then throws a TypeError. -/
def _stepBody (s : TracerState) (step : InterpreterStep) :
    TracerState × Option TracerError :=
  match s.messageTraces.getLast? with
  | none => (s, some .typeError)
  | some traceId =>
    match s.store[traceId]? with
    | none => (s, some .typeError)
    | some trace =>
      if isPrecompileTrace trace then
        (s, some (.error stepOnPrecompileErrorMessage))
      else
        ({ s with store := s.store.set traceId (addStep trace step.pc) }, none)

/-- The try block of _afterMessageHandler (vm-tracer.ts lines 215-229).
Assigning to a field of undefined throws a TypeError when the stack is
empty; otherwise the result fields are written and the frame is popped
when it is not the root. -/
def _afterMessageBody (s : TracerState) (result : EVMResult) :
    TracerState × Option TracerError :=
  match s.messageTraces.getLast? with
  | none => (s, some .typeError)
  | some traceId =>
    match s.store[traceId]? with
    | none => (s, some .typeError)
    | some trace =>
      let s1 := { s with store := s.store.set traceId (applyResult trace result) }
      let s2 :=
        if s1.messageTraces.length > 1 then
          { s1 with messageTraces := s1.messageTraces.dropLast }
        else s1
      (s2, none)

/-- What a handler passed to its continuation: next() or next(error). -/
inductive NextCall where
  | clean
  | withError (e : TracerError)
  deriving DecidableEq

/-- Result of one handler invocation: the new tracer state and the
acknowledgment sent to the event source. -/
structure HandlerResult where
  state : TracerState
  next : NextCall
  deriving DecidableEq

/-- The catch block shared by the three handlers (vm-tracer.ts lines
166-176, 196-206, 230-240): in error-tolerant mode record the error and
acknowledge cleanly, otherwise propagate it through the continuation. The
error report to the external reporter is fire-and-forget and does not
affect the state. -/
def _handleOutcome (out : TracerState × Option TracerError) : HandlerResult :=
  match out with
  | (s, none) => { state := s, next := .clean }
  | (s, some e) =>
    if s.dontThrowErrors then
      { state := { s with lastError := some e }, next := .clean }
    else
      { state := s, next := .withError e }

/-- _beforeMessageHandler. -/
def _beforeMessageHandler (env : VMTracerEnv) (s : TracerState)
    (message : Message) : HandlerResult :=
  if !_shouldKeepTracing s then
    { state := s, next := .clean }
  else
    _handleOutcome (_beforeMessageBody env s message)

/-- _stepHandler. -/
def _stepHandler (s : TracerState) (step : InterpreterStep) : HandlerResult :=
  if !_shouldKeepTracing s then
    { state := s, next := .clean }
  else
    _handleOutcome (_stepBody s step)

/-- _afterMessageHandler. -/
def _afterMessageHandler (s : TracerState) (result : EVMResult) : HandlerResult :=
  if !_shouldKeepTracing s then
    { state := s, next := .clean }
  else
    _handleOutcome (_afterMessageBody s result)

/-- One event delivered by the VM to the attached handlers. -/
inductive VMEvent where
  | beforeMessage (message : Message)
  | step (step : InterpreterStep)
  | afterMessage (result : EVMResult)
  deriving DecidableEq

/-- Dispatch one event to its handler. -/
def processEvent (env : VMTracerEnv) (s : TracerState) (e : VMEvent) :
    HandlerResult :=
  match e with
  | .beforeMessage m => _beforeMessageHandler env s m
  | .step st => _stepHandler s st
  | .afterMessage r => _afterMessageHandler s r

/-- Process a sequence of events in emission order. -/
def runEvents (env : VMTracerEnv) (s : TracerState) (es : List VMEvent) :
    TracerState :=
  es.foldl (fun s e => (processEvent env s e).state) s

/-- Well-nested event sequences with n frames currently open: beforeMessage
arrives at depth n, step and afterMessage only inside an open frame, and
every frame is closed at the end. -/
def wfFrom : Nat → List VMEvent → Bool
  | n, [] => n == 0
  | n, VMEvent.beforeMessage m :: rest => (m.depth == n) && wfFrom (n + 1) rest
  | n, VMEvent.step _ :: rest => (n != 0) && wfFrom n rest
  | n, VMEvent.afterMessage _ :: rest => (n != 0) && wfFrom (n - 1) rest

/-- A well-formed event sequence: properly nested, depths incrementing by
exactly one on nesting, starting and ending with no open frame. -/
def wellFormed (es : List VMEvent) : Bool := wfFrom 0 es

/-- Whether a steps entry is a nested MessageTrace. -/
def isSubtraceStep : MessageTraceStep → Bool
  | .trace _ => true
  | .step _ => false

/-- Number of MessageTrace entries actually present in a steps array. -/
def countSubtraces (steps : List MessageTraceStep) : Nat :=
  steps.countP isSubtraceStep

/-- The eager counter matches the actual number of subtraces in steps, for
the two non-leaf variants. -/
def traceSubtracesOk : MessageTrace → Bool
  | .create t => t.numberOfSubtraces == countSubtraces t.steps
  | .call t => t.numberOfSubtraces == countSubtraces t.steps
  | .precompile _ => true

/-- Every trace object in the store satisfies traceSubtracesOk. -/
def storeSubtracesOk (s : TracerState) : Bool :=
  s.store.all traceSubtracesOk

/-- The error field of any trace variant. -/
def traceError : MessageTrace → Option String
  | .create t => t.error
  | .call t => t.error
  | .precompile t => t.error

/-- The returnData field of any trace variant. -/
def traceReturnData : MessageTrace → Bytes
  | .create t => t.returnData
  | .call t => t.returnData
  | .precompile t => t.returnData

/-- The deployedContract field (none for non-create variants). -/
def traceDeployedContract : MessageTrace → Option Bytes
  | .create t => t.deployedContract
  | _ => none

/-- A trace whose completion fields were set from the given execution
result: error and returnData match it, and for a create trace the
deployedContract matches its createdAddress. -/
def populatedFrom (t : MessageTrace) (r : EVMResult) : Prop :=
  traceError t = r.execResult.exceptionError ∧
  traceReturnData t = r.execResult.returnValue ∧
  (isCreateTrace t = true → traceDeployedContract t = r.createdAddress)

/-- The results of the afterMessage events of a sequence, in order. -/
def afterResults : List VMEvent → List EVMResult
  | [] => []
  | VMEvent.afterMessage r :: rest => r :: afterResults rest
  | _ :: rest => afterResults rest

/-- A concrete environment: nine known precompiles, total code lookup. -/
def exEnv : VMTracerEnv :=
  { precompilesCount := 9, getContractCode := fun _ => Except.ok [96, 0, 86] }

/-- The rejection message of the failing code lookup below. -/
def exFetchFailMessage : String := "contract code lookup rejected"

/-- An environment whose code lookup always fails. -/
def exFailEnv : VMTracerEnv :=
  { precompilesCount := 9,
    getContractCode := fun _ => Except.error exFetchFailMessage }

/-- A top-level call message to address 0xAA. -/
def exCallMessage : Message :=
  { «to» := some [170], data := [1, 2], value := 5, depth := 0,
    _codeAddress := none }

/-- A nested precompile invocation (address 1, depth 1). -/
def exPrecompileMessage : Message :=
  { «to» := some [1], data := [3], value := 0, depth := 1,
    _codeAddress := none }

/-- A top-level contract creation message. -/
def exCreateMessage : Message :=
  { «to» := none, data := [96, 1], value := 0, depth := 0,
    _codeAddress := none }

/-- A nested call message (depth 1). -/
def exNestedCallMessage : Message :=
  { «to» := some [170], data := [], value := 0, depth := 1,
    _codeAddress := none }

/-- A successful execution result carrying a created address. -/
def exResult : EVMResult :=
  { execResult := { exceptionError := none, returnValue := [7] },
    createdAddress := some [11] }

/-- A second execution result. -/
def exResult2 : EVMResult :=
  { execResult := { exceptionError := none, returnValue := [] },
    createdAddress := none }

/-- A well-formed event sequence: top-level call, one step, nested
precompile invocation and its return, another step, top-level return. -/
def exWfEvents : List VMEvent :=
  [VMEvent.beforeMessage exCallMessage, VMEvent.step { pc := 0 },
   VMEvent.beforeMessage exPrecompileMessage, VMEvent.afterMessage exResult2,
   VMEvent.step { pc := 3 }, VMEvent.afterMessage exResult]

/-- A prefix of exWfEvents. -/
def exWfPre : List VMEvent :=
  [VMEvent.beforeMessage exCallMessage, VMEvent.step { pc := 0 },
   VMEvent.beforeMessage exPrecompileMessage, VMEvent.afterMessage exResult2]

/-- The matching suffix of exWfEvents. -/
def exWfSuffix : List VMEvent :=
  [VMEvent.step { pc := 3 }, VMEvent.afterMessage exResult]

/-- A frozen error-tolerant tracer state (an error is recorded). -/
def exFrozenState : TracerState :=
  { store := [], messageTraces := [], enabled := true,
    lastError := some TracerError.typeError, dontThrowErrors := true }

/-- An enabled error-tolerant tracer with no open frame and no error yet. -/
def exEmptyTolerantState : TracerState :=
  { store := [], messageTraces := [], enabled := true, lastError := none,
    dontThrowErrors := true }

/-- A root call frame. -/
def exRootCallTrace : MessageTrace :=
  MessageTrace.call
    { code := [96], calldata := [1], steps := [], value := 0,
      returnData := [], address := [170], numberOfSubtraces := 0, depth := 0,
      error := none }

/-- An enabled strict tracer with one open call frame (the root). -/
def exOpenState : TracerState :=
  { store := [exRootCallTrace], messageTraces := [0], enabled := true,
    lastError := none, dontThrowErrors := false }

/-- A precompile frame. -/
def exPrecompileTrace : MessageTrace :=
  MessageTrace.precompile
    { precompile := 1, calldata := [], value := 0,
      returnData := [], depth := 0, error := none }

/-- An enabled strict tracer whose innermost open frame is a precompile. -/
def exPrecompileParentState : TracerState :=
  { store := [exPrecompileTrace], messageTraces := [0], enabled := true,
    lastError := none, dontThrowErrors := false }

theorem all_set_of_all {α : Type} {p : α → Bool} {l : List α} {i : Nat} {x : α}
    (h : l.all p = true) (hx : p x = true) : (l.set i x).all p = true := by
  induction l generalizing i with
  | nil => simp
  | cons a t ih =>
    cases i with
    | zero => simp_all
    | succ j =>
      simp only [List.set, List.all_cons, Bool.and_eq_true] at h ⊢
      exact ⟨h.1, ih h.2⟩

theorem head_dropLast_of_one_lt {α : Type} (l : List α) (h : 1 < l.length) :
    l.dropLast.head? = l.head? := by
  match l, h with
  | a :: b :: t, _ => simp [List.dropLast]

theorem traceError_applyResult (t : MessageTrace) (r : EVMResult) :
    traceError (applyResult t r) = r.execResult.exceptionError := by
  cases t <;> rfl

theorem traceReturnData_applyResult (t : MessageTrace) (r : EVMResult) :
    traceReturnData (applyResult t r) = r.execResult.returnValue := by
  cases t <;> rfl

theorem traceDeployedContract_applyResult (t : MessageTrace) (r : EVMResult)
    (h : isCreateTrace t = true) :
    traceDeployedContract (applyResult t r) = r.createdAddress := by
  cases t <;> simp_all [isCreateTrace, applyResult, traceDeployedContract]

theorem populatedFrom_applyResult (t : MessageTrace) (r : EVMResult) :
    populatedFrom (applyResult t r) r :=
  ⟨traceError_applyResult t r, traceReturnData_applyResult t r,
   fun h => traceDeployedContract_applyResult t r (by
    cases t <;> simp_all [isCreateTrace, applyResult])⟩

theorem traceSubtracesOk_addStep {t : MessageTrace} {pc : Nat}
    (h : traceSubtracesOk t = true) : traceSubtracesOk (addStep t pc) = true := by
  cases t <;>
    simp_all [traceSubtracesOk, addStep, countSubtraces, List.countP_append,
      List.countP_cons, isSubtraceStep]

theorem traceSubtracesOk_addSubtrace {t : MessageTrace} {id : Nat}
    (h : traceSubtracesOk t = true) :
    traceSubtracesOk (addSubtrace t id) = true := by
  cases t <;>
    simp_all [traceSubtracesOk, addSubtrace, countSubtraces, List.countP_append,
      List.countP_cons, isSubtraceStep]

theorem traceSubtracesOk_applyResult {t : MessageTrace} {r : EVMResult}
    (h : traceSubtracesOk t = true) :
    traceSubtracesOk (applyResult t r) = true := by
  cases t <;> simp_all [traceSubtracesOk, applyResult]

theorem traceSubtracesOk_classify {env : VMTracerEnv} {m : Message}
    {t : MessageTrace} (h : _classifyMessage env m = Except.ok t) :
    traceSubtracesOk t = true := by
  unfold _classifyMessage at h
  cases hto : m.to with
  | none =>
    rw [hto] at h
    cases h
    simp [traceSubtracesOk, countSubtraces]
  | some toBuf =>
    rw [hto] at h
    simp only at h
    by_cases hc : 0 < bufferToBN toBuf ∧ bufferToBN toBuf ≤ MAX_PRECOMPILE_NUMBER env
    · rw [if_pos hc] at h
      cases h
      simp [traceSubtracesOk, countSubtraces]
    · rw [if_neg hc] at h
      cases hfetch : env.getContractCode
          (match m._codeAddress with | some a => a | none => toBuf) with
      | error e =>
        rw [hfetch] at h
        cases h
      | ok code =>
        rw [hfetch] at h
        cases h
        simp [traceSubtracesOk, countSubtraces]

theorem mem_of_getElem_opt {α : Type} {l : List α} {i : Nat} {a : α}
    (h : l[i]? = some a) : a ∈ l := by
  induction l generalizing i with
  | nil => simp at h
  | cons b t ih =>
    cases i with
    | zero =>
      simp only [List.getElem?_cons_zero, Option.some.injEq] at h
      simp [h]
    | succ j =>
      simp only [List.getElem?_cons_succ] at h
      exact List.mem_cons_of_mem _ (ih h)

theorem lt_length_of_getElem_opt {α : Type} {l : List α} {i : Nat} {a : α}
    (h : l[i]? = some a) : i < l.length := by
  by_contra hlt
  rw [List.getElem?_eq_none (by omega)] at h
  cases h

theorem storeSubtracesOk_fields (st : List MessageTrace) (mt : List Nat)
    (en : Bool) (le : Option TracerError) (dt : Bool) :
    storeSubtracesOk (TracerState.mk st mt en le dt) = st.all traceSubtracesOk := rfl

theorem storeOk_beforeBody (env : VMTracerEnv) (s : TracerState) (m : Message)
    (h : storeSubtracesOk s = true) :
    storeSubtracesOk (_beforeMessageBody env s m).1 = true := by
  unfold _beforeMessageBody
  have h1 : storeSubtracesOk
      (if m.depth == 0 then { s with messageTraces := [] } else s) = true := by
    split <;> simpa [storeSubtracesOk] using h
  set s1 := if m.depth == 0 then { s with messageTraces := [] } else s with hs1
  cases hcl : _classifyMessage env m with
  | error e => simpa using h1
  | ok trace =>
    have htr : traceSubtracesOk trace = true := traceSubtracesOk_classify hcl
    simp only
    split
    · cases hlast : s1.messageTraces.getLast? with
      | none => simpa using h1
      | some parentId =>
        simp only
        cases hpar : s1.store[parentId]? with
        | none => simpa using h1
        | some parentTrace =>
          simp only
          split
          · simpa using h1
          · have hparOk : traceSubtracesOk parentTrace = true := by
              have hmem := mem_of_getElem_opt hpar
              exact List.all_eq_true.mp h1 _ hmem
            simp only [storeSubtracesOk, pushTrace, List.all_append,
              List.all_cons, List.all_nil, Bool.and_eq_true]
            refine ⟨?_, htr, trivial⟩
            exact all_set_of_all h1 (traceSubtracesOk_addSubtrace hparOk)
    · simp only [storeSubtracesOk, pushTrace, List.all_append, List.all_cons,
        List.all_nil, Bool.and_eq_true]
      exact ⟨h1, htr, trivial⟩

theorem storeOk_stepBody (s : TracerState) (st : InterpreterStep)
    (h : storeSubtracesOk s = true) :
    storeSubtracesOk (_stepBody s st).1 = true := by
  unfold _stepBody
  cases hlast : s.messageTraces.getLast? with
  | none => simpa using h
  | some traceId =>
    simp only
    cases htr : s.store[traceId]? with
    | none => simpa using h
    | some trace =>
      simp only
      split
      · simpa using h
      · have htrOk : traceSubtracesOk trace = true :=
          List.all_eq_true.mp h _ (mem_of_getElem_opt htr)
        simpa [storeSubtracesOk] using
          all_set_of_all (p := traceSubtracesOk) h (traceSubtracesOk_addStep htrOk)

theorem storeOk_afterBody (s : TracerState) (r : EVMResult)
    (h : storeSubtracesOk s = true) :
    storeSubtracesOk (_afterMessageBody s r).1 = true := by
  unfold _afterMessageBody
  cases hlast : s.messageTraces.getLast? with
  | none => simpa using h
  | some traceId =>
    simp only
    cases htr : s.store[traceId]? with
    | none => simpa using h
    | some trace =>
      have htrOk : traceSubtracesOk trace = true :=
        List.all_eq_true.mp h _ (mem_of_getElem_opt htr)
      have hset : (s.store.set traceId (applyResult trace r)).all traceSubtracesOk = true :=
        all_set_of_all (p := traceSubtracesOk) h (traceSubtracesOk_applyResult htrOk)
      simp only
      split <;> simpa [storeSubtracesOk] using hset

theorem storeOk_handleOutcome (out : TracerState × Option TracerError)
    (h : storeSubtracesOk out.1 = true) :
    storeSubtracesOk (_handleOutcome out).state = true := by
  unfold _handleOutcome
  rcases out with ⟨s, err⟩
  cases err with
  | none => simpa using h
  | some e =>
    simp only
    split <;> simpa [storeSubtracesOk] using h

theorem storeOk_processEvent (env : VMTracerEnv) (s : TracerState) (e : VMEvent)
    (h : storeSubtracesOk s = true) :
    storeSubtracesOk (processEvent env s e).state = true := by
  cases e with
  | beforeMessage m =>
    simp only [processEvent, _beforeMessageHandler]
    split
    · exact h
    · exact storeOk_handleOutcome _ (storeOk_beforeBody env s m h)
  | step st =>
    simp only [processEvent, _stepHandler]
    split
    · exact h
    · exact storeOk_handleOutcome _ (storeOk_stepBody s st h)
  | afterMessage r =>
    simp only [processEvent, _afterMessageHandler]
    split
    · exact h
    · exact storeOk_handleOutcome _ (storeOk_afterBody s r h)

theorem storeOk_runEvents (env : VMTracerEnv) (es : List VMEvent)
    (s : TracerState) (h : storeSubtracesOk s = true) :
    storeSubtracesOk (runEvents env s es) = true := by
  induction es generalizing s with
  | nil => exact h
  | cons e rest ih =>
    simpa [runEvents, List.foldl_cons] using
      ih _ (storeOk_processEvent env s e h)

theorem flags_beforeBody (env : VMTracerEnv) (s : TracerState) (m : Message) :
    (_beforeMessageBody env s m).1.dontThrowErrors = s.dontThrowErrors ∧
    (_beforeMessageBody env s m).1.lastError = s.lastError ∧
    (_beforeMessageBody env s m).1.enabled = s.enabled := by
  unfold _beforeMessageBody
  have hflags : ∀ x : TracerState, x = (if m.depth == 0 then { s with messageTraces := [] } else s) →
      x.dontThrowErrors = s.dontThrowErrors ∧ x.lastError = s.lastError ∧
      x.enabled = s.enabled := by
    intro x hx
    rw [hx]
    split <;> simp
  set s1 := if m.depth == 0 then { s with messageTraces := [] } else s with hs1
  have h1 := hflags s1 rfl
  cases hcl : _classifyMessage env m with
  | error e => simpa using h1
  | ok trace =>
    simp only
    split
    · cases hlast : s1.messageTraces.getLast? with
      | none => simpa using h1
      | some parentId =>
        simp only
        cases hpar : s1.store[parentId]? with
        | none => simpa using h1
        | some parentTrace =>
          simp only
          split
          · simpa using h1
          · simpa [pushTrace] using h1
    · simpa [pushTrace] using h1

theorem flags_stepBody (s : TracerState) (st : InterpreterStep) :
    (_stepBody s st).1.dontThrowErrors = s.dontThrowErrors ∧
    (_stepBody s st).1.lastError = s.lastError ∧
    (_stepBody s st).1.enabled = s.enabled := by
  unfold _stepBody
  cases hlast : s.messageTraces.getLast? with
  | none => exact ⟨rfl, rfl, rfl⟩
  | some traceId =>
    simp only
    cases htr : s.store[traceId]? with
    | none => exact ⟨rfl, rfl, rfl⟩
    | some trace =>
      simp only
      split <;> simp

theorem flags_afterBody (s : TracerState) (r : EVMResult) :
    (_afterMessageBody s r).1.dontThrowErrors = s.dontThrowErrors ∧
    (_afterMessageBody s r).1.lastError = s.lastError ∧
    (_afterMessageBody s r).1.enabled = s.enabled := by
  unfold _afterMessageBody
  cases hlast : s.messageTraces.getLast? with
  | none => exact ⟨rfl, rfl, rfl⟩
  | some traceId =>
    simp only
    cases htr : s.store[traceId]? with
    | none => exact ⟨rfl, rfl, rfl⟩
    | some trace =>
      simp only
      split <;> simp

theorem handleOutcome_of_strict (out : TracerState × Option TracerError)
    (hd : out.1.dontThrowErrors = false) :
    (_handleOutcome out).state = out.1 := by
  unfold _handleOutcome
  rcases out with ⟨s, err⟩
  cases err with
  | none => rfl
  | some e => simp_all

theorem strict_processEvent_preserves (env : VMTracerEnv) (s : TracerState)
    (e : VMEvent) (hstrict : s.dontThrowErrors = false) :
    (processEvent env s e).state.dontThrowErrors = false ∧
    (processEvent env s e).state.lastError = s.lastError := by
  cases e with
  | beforeMessage m =>
    simp only [processEvent, _beforeMessageHandler]
    split
    · exact ⟨hstrict, rfl⟩
    · rw [handleOutcome_of_strict _ (by rw [(flags_beforeBody env s m).1]; exact hstrict)]
      exact ⟨by rw [(flags_beforeBody env s m).1]; exact hstrict,
        (flags_beforeBody env s m).2.1⟩
  | step st =>
    simp only [processEvent, _stepHandler]
    split
    · exact ⟨hstrict, rfl⟩
    · rw [handleOutcome_of_strict _ (by rw [(flags_stepBody s st).1]; exact hstrict)]
      exact ⟨by rw [(flags_stepBody s st).1]; exact hstrict,
        (flags_stepBody s st).2.1⟩
  | afterMessage r =>
    simp only [processEvent, _afterMessageHandler]
    split
    · exact ⟨hstrict, rfl⟩
    · rw [handleOutcome_of_strict _ (by rw [(flags_afterBody s r).1]; exact hstrict)]
      exact ⟨by rw [(flags_afterBody s r).1]; exact hstrict,
        (flags_afterBody s r).2.1⟩

/-- C1: for every well-formed event sequence (properly nested, depths
incrementing by exactly one) and every prefix of it, every non-leaf
(create or call) trace object built by the tracer has numberOfSubtraces
equal to the number of MessageTrace entries actually present in its steps
sequence, so the invariant holds at every point during and after
processing. -/
theorem numberOfSubtraces_matches_steps (env : VMTracerEnv) (dontThrow : Bool)
    (es pre : List VMEvent) (hwf : wellFormed es = true) (hpre : pre <+: es) :
    storeSubtracesOk (runEvents env (enableTracing (mkVMTracer dontThrow)) pre) = true :=
  storeOk_runEvents env pre _ rfl

theorem numberOfSubtraces_matches_steps_witness :
    wellFormed exWfEvents = true ∧
    storeSubtracesOk (runEvents exEnv (enableTracing (mkVMTracer false)) exWfPre) = true :=
  ⟨by decide,
   numberOfSubtraces_matches_steps exEnv false exWfEvents exWfPre (by decide)
     ⟨exWfSuffix, by decide⟩⟩

/-- C2: in error-tolerant mode, once an error has been recorded in the
last-error slot every handler acknowledges its continuation without error
and leaves the whole tracer state (frame stack, traces, last error)
unchanged, for every later event and for every later event sequence. -/
theorem frozen_handlers_are_noops (env : VMTracerEnv) (s : TracerState)
    (e : VMEvent) (es : List VMEvent) (err : TracerError)
    (h1 : s.dontThrowErrors = true) (h2 : s.lastError = some err) :
    processEvent env s e = { state := s, next := NextCall.clean } ∧
    runEvents env s es = s := by
  have hk : _shouldKeepTracing s = false := by
    simp [_shouldKeepTracing, h1, h2]
  have hstep : ∀ ev, processEvent env s ev = { state := s, next := NextCall.clean } := by
    intro ev
    cases ev <;>
      simp [processEvent, _beforeMessageHandler, _stepHandler,
        _afterMessageHandler, hk]
  refine ⟨hstep e, ?_⟩
  induction es with
  | nil => rfl
  | cons ev rest ih =>
    have h' : (processEvent env s ev).state = s := by rw [hstep ev]
    simpa [runEvents, List.foldl_cons, h'] using ih

theorem frozen_handlers_are_noops_witness :
    processEvent exEnv exFrozenState (VMEvent.step { pc := 0 }) =
      { state := exFrozenState, next := NextCall.clean } ∧
    runEvents exEnv exFrozenState exWfEvents = exFrozenState :=
  frozen_handlers_are_noops exEnv exFrozenState (VMEvent.step { pc := 0 })
    exWfEvents TracerError.typeError rfl rfl

/-- C7: a beforeMessage at depth 0 empties the previous trace list before
the new top-level frame is created: afterwards the open-frame list is the
single new frame, or empty when the handler threw, so at most one trace
tree exists per top-level message. -/
theorem depth_zero_clears_previous_tree (env : VMTracerEnv) (s : TracerState)
    (m : Message) (hkeep : _shouldKeepTracing s = true) (hdepth : m.depth = 0) :
    (_beforeMessageHandler env s m).state.messageTraces = [s.store.length] ∨
    (_beforeMessageHandler env s m).state.messageTraces = [] := by
  unfold _beforeMessageHandler
  simp only [hkeep, Bool.not_true, Bool.false_eq_true, if_false]
  unfold _beforeMessageBody
  rw [hdepth]
  simp only [beq_self_eq_true, if_true]
  cases hcl : _classifyMessage env m with
  | error e =>
    right
    simp only [_handleOutcome]
    split <;> rfl
  | ok trace =>
    left
    simp [_handleOutcome, pushTrace]

theorem depth_zero_clears_previous_tree_witness :
    (_beforeMessageHandler exEnv exOpenState exCallMessage).state.messageTraces =
      [exOpenState.store.length] ∨
    (_beforeMessageHandler exEnv exOpenState exCallMessage).state.messageTraces = [] :=
  depth_zero_clears_previous_tree exEnv exOpenState exCallMessage rfl rfl

/-- C10: when the tracer is constructed in strict mode the last-error slot
is never written by any handler: after any event sequence getLastError
still returns none. -/
theorem strict_mode_never_records_error (env : VMTracerEnv) (es : List VMEvent)
    (s : TracerState) (hstrict : s.dontThrowErrors = false)
    (hnone : s.lastError = none) :
    getLastError (runEvents env s es) = none := by
  induction es generalizing s with
  | nil => exact hnone
  | cons e rest ih =>
    have h := strict_processEvent_preserves env s e hstrict
    have hrw : runEvents env s (e :: rest) =
        runEvents env (processEvent env s e).state rest := by
      simp [runEvents, List.foldl_cons]
    rw [hrw]
    exact ih _ h.1 (h.2.trans hnone)

theorem strict_mode_never_records_error_witness :
    getLastError (runEvents exEnv (enableTracing (mkVMTracer false)) exWfEvents) = none :=
  strict_mode_never_records_error exEnv exWfEvents _ rfl rfl

/-- C3: for a beforeMessage whose message has a target address, the message
is classified as a precompile frame iff the target read as a big-endian
integer lies in the inclusive range from 1 to precompilesCount + 1, and the
precompile identifier of the frame then equals that integer. -/
theorem precompile_classification (env : VMTracerEnv) (m : Message)
    (toBuf : Bytes) (hto : m.to = some toBuf) :
    ((∃ pt, _classifyMessage env m = Except.ok (MessageTrace.precompile pt)) ↔
      (1 ≤ bufferToBN toBuf ∧ bufferToBN toBuf ≤ env.precompilesCount + 1)) ∧
    (∀ pt, _classifyMessage env m = Except.ok (MessageTrace.precompile pt) →
      pt.precompile = bufferToBN toBuf) := by
  unfold _classifyMessage
  rw [hto]
  simp only
  by_cases hc : 0 < bufferToBN toBuf ∧ bufferToBN toBuf ≤ MAX_PRECOMPILE_NUMBER env
  · rw [if_pos hc]
    refine ⟨⟨fun _ => ⟨hc.1, hc.2⟩, fun _ => ⟨_, rfl⟩⟩, ?_⟩
    intro pt hpt
    cases hpt
    rfl
  · rw [if_neg hc]
    have hnc : ¬ (1 ≤ bufferToBN toBuf ∧ bufferToBN toBuf ≤ env.precompilesCount + 1) := hc
    cases hfetch : env.getContractCode
        (match m._codeAddress with | some a => a | none => toBuf) with
    | error e =>
      refine ⟨⟨fun hex => ?_, fun hin => absurd hin hnc⟩, ?_⟩
      · rcases hex with ⟨pt, hpt⟩
        cases hpt
      · intro pt hpt
        cases hpt
    | ok code =>
      refine ⟨⟨fun hex => ?_, fun hin => absurd hin hnc⟩, ?_⟩
      · rcases hex with ⟨pt, hpt⟩
        cases hpt
      · intro pt hpt
        cases hpt

theorem precompile_classification_witness :
    (∃ pt, _classifyMessage exEnv exPrecompileMessage =
      Except.ok (MessageTrace.precompile pt)) :=
  (precompile_classification exEnv exPrecompileMessage [1] rfl).1.mpr (by decide)

/-- C4: an afterMessage processed with a non-empty frame stack sets the
innermost frame error and returnData from the result, additionally sets
deployedContract from the result when that frame is a create, acknowledges
cleanly, and pops the frame iff the stack held more than one entry; the
first (root) entry is never removed. -/
theorem afterMessage_updates_and_pops (s : TracerState) (result : EVMResult)
    (traceId : Nat) (trace : MessageTrace)
    (hkeep : _shouldKeepTracing s = true)
    (hlast : s.messageTraces.getLast? = some traceId)
    (hstore : s.store[traceId]? = some trace) :
    ∃ t, (_afterMessageHandler s result).state.store[traceId]? = some t ∧
      traceError t = result.execResult.exceptionError ∧
      traceReturnData t = result.execResult.returnValue ∧
      (isCreateTrace trace = true →
        traceDeployedContract t = result.createdAddress) ∧
      (_afterMessageHandler s result).state.messageTraces =
        (if 1 < s.messageTraces.length then s.messageTraces.dropLast
         else s.messageTraces) ∧
      (_afterMessageHandler s result).state.messageTraces.head? =
        s.messageTraces.head? ∧
      (_afterMessageHandler s result).next = NextCall.clean := by
  have hlt : traceId < s.store.length := lt_length_of_getElem_opt hstore
  unfold _afterMessageHandler
  simp only [hkeep, Bool.not_true, Bool.false_eq_true, if_false]
  unfold _afterMessageBody
  rw [hlast]
  simp only
  rw [hstore]
  simp only [_handleOutcome]
  refine ⟨applyResult trace result, ?_, traceError_applyResult _ _,
    traceReturnData_applyResult _ _,
    fun h => traceDeployedContract_applyResult _ _ h, ?_, ?_, ?_⟩
  · by_cases hlen : 1 < s.messageTraces.length <;>
      simp [hlen, List.getElem?_set_eq_of_lt _ hlt]
  · by_cases hlen : 1 < s.messageTraces.length <;> simp [hlen]
  · by_cases hlen : 1 < s.messageTraces.length
    · simp [hlen, head_dropLast_of_one_lt _ hlen]
    · simp [hlen]
  · trivial

theorem afterMessage_updates_and_pops_witness :
    ∃ t, (_afterMessageHandler exOpenState exResult).state.store[0]? = some t ∧
      traceError t = exResult.execResult.exceptionError ∧
      traceReturnData t = exResult.execResult.returnValue ∧
      (isCreateTrace exRootCallTrace = true →
        traceDeployedContract t = exResult.createdAddress) ∧
      (_afterMessageHandler exOpenState exResult).state.messageTraces =
        (if 1 < exOpenState.messageTraces.length then
          exOpenState.messageTraces.dropLast
         else exOpenState.messageTraces) ∧
      (_afterMessageHandler exOpenState exResult).state.messageTraces.head? =
        exOpenState.messageTraces.head? ∧
      (_afterMessageHandler exOpenState exResult).next = NextCall.clean :=
  afterMessage_updates_and_pops exOpenState exResult 0 exRootCallTrace rfl rfl rfl

/-- C5: the top-level-trace query fails with a usage error iff the tracer
is disabled or no message has been processed yet; otherwise it succeeds and
returns the first (root) frame of the trace list. -/
theorem getLastTopLevelMessageTrace_spec (s : TracerState)
    (hvalid : ∀ id ∈ s.messageTraces, id < s.store.length) :
    ((∃ msg, getLastTopLevelMessageTrace s =
        Except.error (TracerError.usageError msg)) ↔
      (s.enabled = false ∨ s.messageTraces = [])) ∧
    ((∃ e, getLastTopLevelMessageTrace s = Except.error e) ↔
      (s.enabled = false ∨ s.messageTraces = [])) ∧
    (∀ id, s.enabled = true → s.messageTraces.head? = some id →
      ∃ t, s.store[id]? = some t ∧
        getLastTopLevelMessageTrace s = Except.ok t) := by
  unfold getLastTopLevelMessageTrace
  cases hen : s.enabled with
  | false =>
    refine ⟨⟨fun _ => Or.inl rfl, fun _ => ⟨cannotGetTraceDisabledMessage, by simp⟩⟩,
      ⟨fun _ => Or.inl rfl,
       fun _ => ⟨TracerError.usageError cannotGetTraceDisabledMessage, by simp⟩⟩, ?_⟩
    intro id hcontr
    simp at hcontr
  | true =>
    simp only [Bool.not_true, Bool.false_eq_true, if_false]
    cases hmt : s.messageTraces with
    | nil =>
      refine ⟨⟨fun _ => Or.inr rfl,
        fun _ => ⟨cannotGetTraceNoMessageMessage, by simp⟩⟩,
        ⟨fun _ => Or.inr rfl,
         fun _ => ⟨TracerError.usageError cannotGetTraceNoMessageMessage, by simp⟩⟩, ?_⟩
      intro id _ hhead
      cases hhead
    | cons a as =>
      have ha : a < s.store.length := by
        apply hvalid
        rw [hmt]
        exact List.mem_cons_self a as
      have hget : s.store[a]? = some s.store[a] := List.getElem?_eq_getElem ha
      refine ⟨?_, ?_, ?_⟩
      · constructor
        · rintro ⟨msg, hmsg⟩
          simp only [List.length_cons, List.head?_cons] at hmsg
          rw [hget] at hmsg
          simp at hmsg
        · rintro (h | h)
          · simp at h
          · simp at h
      · constructor
        · rintro ⟨e, he⟩
          simp only [List.length_cons, List.head?_cons] at he
          rw [hget] at he
          simp at he
        · rintro (h | h)
          · simp at h
          · simp at h
      · intro id _ hhead
        simp only [List.head?_cons, Option.some.injEq] at hhead
        subst hhead
        refine ⟨s.store[a], hget, ?_⟩
        simp only [List.length_cons, List.head?_cons]
        rw [hget]
        simp

theorem getLastTopLevelMessageTrace_spec_witness :
    (∀ id ∈ exOpenState.messageTraces, id < exOpenState.store.length) ∧
    (∀ id, exOpenState.enabled = true →
      exOpenState.messageTraces.head? = some id →
      ∃ t, exOpenState.store[id]? = some t ∧
        getLastTopLevelMessageTrace exOpenState = Except.ok t) :=
  ⟨by decide, (getLastTopLevelMessageTrace_spec exOpenState (by decide)).2.2⟩

/-- C6 counterexample: after processing only a depth-0 beforeMessage the
query already succeeds, although no afterMessage has fired: no execution
result of the processed sequence populates the returned root. -/
theorem query_succeeds_before_afterMessage :
    (∃ t, getLastTopLevelMessageTrace
        (runEvents exEnv (enableTracing (mkVMTracer false))
          [VMEvent.beforeMessage exCreateMessage]) = Except.ok t) ∧
    ¬ (∃ r ∈ afterResults [VMEvent.beforeMessage exCreateMessage],
        ∃ t, getLastTopLevelMessageTrace
            (runEvents exEnv (enableTracing (mkVMTracer false))
              [VMEvent.beforeMessage exCreateMessage]) = Except.ok t ∧
          populatedFrom t r) := by
  constructor
  · exact ⟨_, rfl⟩
  · simp [afterResults]

/-- C6 (amended): the query can also succeed before the root frame has
received its afterMessage; once the root's own afterMessage is processed
(the open-frame stack holds only the root), the query succeeds and returns
the root fully populated from that execution result. -/
theorem root_populated_after_its_afterMessage (s : TracerState)
    (result : EVMResult) (rootId : Nat) (trace : MessageTrace)
    (henabled : s.enabled = true)
    (hstack : s.messageTraces = [rootId])
    (hstore : s.store[rootId]? = some trace)
    (hkeep : _shouldKeepTracing s = true) :
    ∃ t, getLastTopLevelMessageTrace (_afterMessageHandler s result).state =
        Except.ok t ∧ populatedFrom t result := by
  have hlt : rootId < s.store.length := lt_length_of_getElem_opt hstore
  refine ⟨applyResult trace result, ?_, populatedFrom_applyResult trace result⟩
  unfold _afterMessageHandler
  simp only [hkeep, Bool.not_true, Bool.false_eq_true, if_false]
  unfold _afterMessageBody
  rw [hstack]
  simp only [List.getLast?_singleton]
  rw [hstore]
  simp only [_handleOutcome]
  unfold getLastTopLevelMessageTrace
  simp [henabled, List.getElem?_set_eq_of_lt _ hlt]

theorem root_populated_after_its_afterMessage_witness :
    ∃ t, getLastTopLevelMessageTrace
        (_afterMessageHandler exOpenState exResult).state = Except.ok t ∧
      populatedFrom t exResult :=
  root_populated_after_its_afterMessage exOpenState exResult 0 exRootCallTrace
    rfl rfl rfl rfl

/-- C8 counterexample: a nested beforeMessage arriving while a precompile
is the innermost open frame does not raise the invariant diagnostic when
the code fetch fails first: the raised error is the fetch error, which
carries no invariant-identifying message. -/
theorem nested_call_error_not_invariant_diagnostic :
    (_beforeMessageBody exFailEnv exPrecompileParentState exNestedCallMessage).2 =
      some (TracerError.fetchError exFetchFailMessage) ∧
    (_beforeMessageBody exFailEnv exPrecompileParentState exNestedCallMessage).2 ≠
      some (TracerError.error precompileParentErrorMessage) := by
  constructor
  · rfl
  · decide

/-- C8 (amended): a step event while the innermost open frame is a
precompile raises the internal diagnostic error with the state untouched;
a nested (depth not 0) beforeMessage does the same provided message
classification succeeds (in particular the code fetch, when one is needed,
does not fail first). -/
theorem precompile_parent_invariant_errors (env : VMTracerEnv)
    (s : TracerState) (st : InterpreterStep) (m : Message) (traceId : Nat)
    (pt : PrecompileMessageTrace)
    (hlast : s.messageTraces.getLast? = some traceId)
    (hstore : s.store[traceId]? = some (MessageTrace.precompile pt))
    (hdepth : m.depth ≠ 0)
    (hclass : ∃ t, _classifyMessage env m = Except.ok t) :
    _stepBody s st = (s, some (TracerError.error stepOnPrecompileErrorMessage)) ∧
    _beforeMessageBody env s m =
      (s, some (TracerError.error precompileParentErrorMessage)) := by
  constructor
  · unfold _stepBody
    rw [hlast]
    simp only
    rw [hstore]
    simp [isPrecompileTrace]
  · unfold _beforeMessageBody
    have hd : (m.depth == 0) = false := by simpa using hdepth
    rw [hd]
    simp only [Bool.false_eq_true, if_false]
    rcases hclass with ⟨t, ht⟩
    rw [ht]
    simp only
    have hlen : 0 < s.messageTraces.length := by
      cases hl : s.messageTraces with
      | nil => rw [hl] at hlast; cases hlast
      | cons a as => simp [hl]
    rw [if_pos hlen]
    rw [hlast]
    simp only
    rw [hstore]
    simp [isPrecompileTrace]

theorem precompile_parent_invariant_errors_witness :
    _stepBody exPrecompileParentState { pc := 0 } =
      (exPrecompileParentState,
        some (TracerError.error stepOnPrecompileErrorMessage)) ∧
    _beforeMessageBody exEnv exPrecompileParentState exPrecompileMessage =
      (exPrecompileParentState,
        some (TracerError.error precompileParentErrorMessage)) :=
  precompile_parent_invariant_errors exEnv exPrecompileParentState { pc := 0 }
    exPrecompileMessage 0 _ rfl rfl (by decide) ⟨_, rfl⟩

/-- C9 counterexample: with an empty open-frame stack in error-tolerant
mode (tracing not frozen) the step handler acknowledges its continuation
cleanly while recording the dereference error, contradicting that the
acknowledgment is not clean. -/
theorem tolerant_empty_stack_acknowledges_cleanly :
    (processEvent exEnv exEmptyTolerantState (VMEvent.step { pc := 0 })).next =
      NextCall.clean ∧
    (processEvent exEnv exEmptyTolerantState
      (VMEvent.step { pc := 0 })).state.lastError =
      some TracerError.typeError := by
  constructor <;> rfl

/-- C9 (amended): a step or afterMessage handled with an empty open-frame
stack while tracing is not frozen raises the undefined-dereference error,
which carries no invariant-identifying diagnostic; in strict mode the
continuation carries that error, while in error-tolerant mode the handler
acknowledges cleanly and records it. The frame stack and traces are
unchanged in every case. -/
theorem empty_stack_dereference_error (s : TracerState)
    (st : InterpreterStep) (r : EVMResult)
    (hempty : s.messageTraces = [])
    (hkeep : _shouldKeepTracing s = true) :
    _stepBody s st = (s, some TracerError.typeError) ∧
    _afterMessageBody s r = (s, some TracerError.typeError) ∧
    (s.dontThrowErrors = false →
      _stepHandler s st =
        { state := s, next := NextCall.withError TracerError.typeError } ∧
      _afterMessageHandler s r =
        { state := s, next := NextCall.withError TracerError.typeError }) ∧
    (s.dontThrowErrors = true →
      _stepHandler s st =
        { state := { s with lastError := some TracerError.typeError },
          next := NextCall.clean } ∧
      _afterMessageHandler s r =
        { state := { s with lastError := some TracerError.typeError },
          next := NextCall.clean }) := by
  have hsb : _stepBody s st = (s, some TracerError.typeError) := by
    unfold _stepBody
    rw [hempty]
    rfl
  have hab : _afterMessageBody s r = (s, some TracerError.typeError) := by
    unfold _afterMessageBody
    rw [hempty]
    rfl
  refine ⟨hsb, hab, ?_, ?_⟩
  · intro hstrict
    constructor
    · unfold _stepHandler
      simp only [hkeep, Bool.not_true, Bool.false_eq_true, if_false]
      rw [hsb]
      simp [_handleOutcome, hstrict]
    · unfold _afterMessageHandler
      simp only [hkeep, Bool.not_true, Bool.false_eq_true, if_false]
      rw [hab]
      simp [_handleOutcome, hstrict]
  · intro htol
    constructor
    · unfold _stepHandler
      simp only [hkeep, Bool.not_true, Bool.false_eq_true, if_false]
      rw [hsb]
      simp [_handleOutcome, htol]
    · unfold _afterMessageHandler
      simp only [hkeep, Bool.not_true, Bool.false_eq_true, if_false]
      rw [hab]
      simp [_handleOutcome, htol]

theorem empty_stack_dereference_error_witness :
    _stepBody exEmptyTolerantState { pc := 0 } =
      (exEmptyTolerantState, some TracerError.typeError) :=
  (empty_stack_dereference_error exEmptyTolerantState { pc := 0 } exResult
    rfl rfl).1
